import Mathlib

/-!
Verification of the backgroundarr media-artwork manager (`src/app.py`) against its
natural-language specification.  The Python source is shallowly embedded below:
pure string helpers become Lean functions on `String`/`List Char`, the
`difflib.SequenceMatcher` similarity machinery is reproduced over `List Char`
with scores in `ℚ`, and the stateful pieces (JSON stores, filesystem, scan
cache) are modelled by explicit state passing, with the filesystem supplied as
an oracle argument.
-/

set_option maxRecDepth 20000

namespace Backgroundarr

/-! ## Title Normalizer (`normalize_title`, `strip_leading_the`, `generate_clean_id`) -/

/-- Character class `[a-z0-9]`, the characters kept by `normalize_title` and
`generate_clean_id` after lowercasing. -/
def isLowerAlnum (c : Char) : Bool :=
  ('a' ≤ c && c ≤ 'z') || ('0' ≤ c && c ≤ '9')

/-- Embedding of Python's `str.lower()` (ASCII letters; characters outside
`A`–`Z` are unchanged, which is all the comparisons below depend on). -/
def pyLower (s : String) : String :=
  ⟨s.data.map Char.toLower⟩

/-- Embedding of `normalize_title` (src/app.py:260-262):
`re.sub(r'[^a-z0-9]+', '', title.lower())`, i.e. lowercase and keep only
`[a-z0-9]`. -/
def normalize_title (title : String) : String :=
  ⟨((pyLower title).data.filter isLowerAlnum)⟩

/-- Embedding of Python's `s.startswith(p)` on character lists. -/
def pyStartswith (s p : String) : Bool :=
  p.data.isPrefixOf s.data

/-- Embedding of Python's `s[4:]` slice: drop the first four characters. -/
def pySlice4 (s : String) : String :=
  ⟨s.data.drop 4⟩

/-- Embedding of `strip_leading_the` (src/app.py:265-268): drop the first four
characters when `title.lower()` starts with `"the "`. -/
def strip_leading_the (title : String) : String :=
  if pyStartswith (pyLower title) "the " then pySlice4 title else title

/-- Sort key used at src/app.py:412: `strip_leading_the(x['title'].lower())`. -/
def sortKey (title : String) : String :=
  strip_leading_the (pyLower title)

/-- State machine for `re.sub(r'[^a-z0-9]+', '-', s)`: each maximal run of
characters outside `[a-z0-9]` becomes a single dash.  The boolean argument
records whether the previous character was part of such a run. -/
def replaceRunsAux : Bool → List Char → List Char
  | _, [] => []
  | inRun, c :: rest =>
    if isLowerAlnum c then c :: replaceRunsAux false rest
    else if inRun then replaceRunsAux true rest
    else '-' :: replaceRunsAux true rest

/-- Replacement of every run of non-`[a-z0-9]` characters by one dash. -/
def replaceRuns (l : List Char) : List Char :=
  replaceRunsAux false l

/-- Embedding of Python's `str.strip('-')`: remove leading and trailing dashes. -/
def pyStripDash (l : List Char) : List Char :=
  (((l.dropWhile (· = '-')).reverse).dropWhile (· = '-')).reverse

/-- Embedding of `generate_clean_id` (src/app.py:271-274):
`re.sub(r'[^a-z0-9]+', '-', title.lower()).strip('-')`. -/
def generate_clean_id (title : String) : String :=
  ⟨pyStripDash (replaceRuns (pyLower title).data)⟩

/-! ## `difflib.SequenceMatcher` similarity

`SequenceMatcher(None, a, b).ratio()` is `2*M/(len a + len b)` where `M` is the
total size of the matching blocks found by recursively locating the longest
common contiguous block (earliest position in `a`, then in `b`, on ties).  The
strings compared in `src/app.py` are short normalized titles, far below the
200-character bound at which difflib's popularity heuristic starts marking
junk, so the plain algorithm is the exact semantics here. -/

/-- Length of the longest common prefix of two character lists. -/
def commonPrefixLen : List Char → List Char → Nat
  | a :: as, b :: bs => if a = b then commonPrefixLen as bs + 1 else 0
  | _, _ => 0

/-- Length of the matching run of `a` and `b` starting at positions `i`, `j`,
confined to `a[:ahi]` and `b[:bhi]`. -/
def matchLen (a b : List Char) (ahi bhi i j : Nat) : Nat :=
  commonPrefixLen ((a.take ahi).drop i) ((b.take bhi).drop j)

/-- Candidate start positions `(i, j)` with `alo ≤ i < ahi`, `blo ≤ j < bhi`,
enumerated in the order `find_longest_match` visits them (`i` ascending, then
`j` ascending). -/
def candPairs (alo ahi blo bhi : Nat) : List (Nat × Nat) :=
  (List.range' alo (ahi - alo)).flatMap fun i =>
    (List.range' blo (bhi - blo)).map fun j => (i, j)

/-- Embedding of `SequenceMatcher.find_longest_match` on the window
`a[alo:ahi]`, `b[blo:bhi]` (no junk): the longest matching block, the earliest
such block winning ties, returned as `(i, j, size)`. -/
def fml (a b : List Char) (alo ahi blo bhi : Nat) : Nat × Nat × Nat :=
  (candPairs alo ahi blo bhi).foldl
    (fun best ij =>
      let k := matchLen a b ahi bhi ij.1 ij.2
      if best.2.2 < k then (ij.1, ij.2, k) else best)
    (alo, blo, 0)

/-- Total size `M` of all matching blocks (`get_matching_blocks` recursion),
written with an explicit fuel argument so the definition is structurally
recursive.  Each recursive call shrinks the window measure
`(ahi - alo) + (bhi - blo)` by at least two while consuming one unit of fuel,
so fuel `(ahi - alo) + (bhi - blo)` never runs out; a window of measure zero
has no candidate pairs and yields `0` in either branch. -/
def matchTotalGo : Nat → List Char → List Char → Nat → Nat → Nat → Nat → Nat
  | 0, _, _, _, _, _, _ => 0
  | fuel + 1, a, b, alo, ahi, blo, bhi =>
    let t := fml a b alo ahi blo bhi
    if 0 < t.2.2 then
      matchTotalGo fuel a b alo t.1 blo t.2.1 + t.2.2 +
        matchTotalGo fuel a b (t.1 + t.2.2) ahi (t.2.1 + t.2.2) bhi
    else 0

/-- Total matched size `M` for two whole character lists. -/
def matchTotal (a b : List Char) : Nat :=
  matchTotalGo (a.length + b.length) a b 0 a.length 0 b.length

/-- Embedding of `SequenceMatcher.ratio()`: `2*M / (len a + len b)`, and `1`
for two empty sequences (difflib's `_calculate_ratio`). -/
def ratioOf (a b : List Char) : ℚ :=
  if a.length + b.length = 0 then 1
  else (2 * (matchTotal a b : ℚ)) / ((a.length : ℚ) + (b.length : ℚ))

/-- Similarity score computed at src/app.py:852:
`SequenceMatcher(None, normalize_title(media_title), normalize_title(directory)).ratio()`. -/
def simTitle (media_title directory : String) : ℚ :=
  ratioOf (normalize_title media_title).data (normalize_title directory).data

/-! ## `difflib.get_close_matches` (used at src/app.py:908) -/

/-- Comparison of Python pairs `(score, name)`: lexicographic on the score and
then on the name (code-point order, matching Lean's `String` order). -/
def pyPairLt (p q : ℚ × String) : Prop :=
  p.1 < q.1 ∨ (p.1 = q.1 ∧ p.2 < q.2)

instance (p q : ℚ × String) : Decidable (pyPairLt p q) := by
  unfold pyPairLt; infer_instance

/-- Stable insertion into a descending-sorted list: an element moves in front
only of strictly smaller pairs, as in `sorted(..., reverse=True)`. -/
def insertDesc (p : ℚ × String) : List (ℚ × String) → List (ℚ × String)
  | [] => [p]
  | q :: t => if pyPairLt q p then p :: q :: t else q :: insertDesc p t

/-- Embedding of `heapq.nlargest n` as used by difflib: the `n` largest pairs
in descending order (documented as `sorted(iterable, reverse=True)[:n]`). -/
def nlargest (n : Nat) (l : List (ℚ × String)) : List (ℚ × String) :=
  (l.foldr insertDesc []).take n

/-- Embedding of `difflib.get_close_matches(word, possibilities, n, cutoff)`:
keep the possibilities whose ratio against `word` reaches `cutoff`, take the
`n` best, return the names.  The `real_quick_ratio`/`quick_ratio` shortcuts in
difflib are upper bounds of `ratio` and do not change the result set. -/
def get_close_matches (word : String) (possibilities : List String)
    (n : Nat) (cutoff : ℚ) : List String :=
  (nlargest n (possibilities.filterMap fun x =>
      if cutoff ≤ ratioOf x.data word.data then some (ratioOf x.data word.data, x)
      else none)).map Prod.snd

/-! ## Match Resolver: the directory-matching logic of `select_artwork`
(src/app.py:836-914).  `safe_listdir` results are supplied as data: `folders`
is the list of `(base_folder, directories)` pairs. -/

/-- Embedding of `os.path.join(base, child)` for the relative child names that
occur here. -/
def joinPath (base child : String) : String :=
  base ++ "/" ++ child

/-- Inner loop of `select_artwork` over one root's directory list
(src/app.py:849-862).  Carries `best_similarity` and `best_match_dir`; stops
with `save_dir` set at the first directory whose name equals `media_title`
verbatim.  Returns `(best_similarity, best_match_dir, save_dir)`. -/
def scanDirs (media_title base_folder : String) :
    List String → ℚ → Option String → ℚ × Option String × Option String
  | [], best, bestDir => (best, bestDir, none)
  | d :: ds, best, bestDir =>
    let similarity := simTitle media_title d
    let best' := if best < similarity then similarity else best
    let bestDir' := if best < similarity then some (joinPath base_folder d) else bestDir
    if d = media_title then (best', bestDir', some (joinPath base_folder d))
    else scanDirs media_title base_folder ds best' bestDir'

/-- Outer loop of `select_artwork` over the base folders (src/app.py:845-865).
`possible_dirs` accumulates every listed directory name; the loop stops early
once `save_dir` is set.  Returns
`(best_similarity, best_match_dir, save_dir, possible_dirs)`. -/
def scanFolders (media_title : String) :
    List (String × List String) → ℚ → Option String → List String →
    ℚ × Option String × Option String × List String
  | [], best, bestDir, possible => (best, bestDir, none, possible)
  | (bf, dirs) :: rest, best, bestDir, possible =>
    let possible' := possible ++ dirs
    let r := scanDirs media_title bf dirs best bestDir
    match r.2.2 with
    | some s => (r.1, r.2.1, some s, possible')
    | none => scanFolders media_title rest r.1 r.2.1 possible'

/-- Similarity threshold hardcoded at src/app.py:887: `similarity_threshold = 0.8`. -/
def similarity_threshold : ℚ := 4/5

/-- Result of the directory-matching portion of `select_artwork`: which branch
of src/app.py:868-914 runs, and with which directory / candidate list. -/
inductive ArtworkOutcome where
  | exactMatch (save_dir : String)
  | fuzzyMatch (save_dir : Option String)
  | manual (similar_dirs : List String)
deriving DecidableEq

/-- Embedding of the matching logic of `select_artwork` (src/app.py:836-914):
exact directory-name match wins, otherwise the best fuzzy match is accepted
when `best_similarity >= similarity_threshold`, otherwise the user is shown
`get_close_matches(media_title, possible_dirs, n=5, cutoff=0.5)`. -/
def select_artwork_match (media_title : String)
    (folders : List (String × List String)) : ArtworkOutcome :=
  let r := scanFolders media_title folders 0 none []
  match r.2.2.1 with
  | some s => .exactMatch s
  | none =>
    if similarity_threshold ≤ r.1 then .fuzzyMatch r.2.1
    else .manual (get_close_matches media_title r.2.2.2 5 (1/2))

/-! ## Directory Index (`safe_listdir`, src/app.py:15-21)

`os.listdir` outcomes are supplied as an oracle indexed by attempt number, so
that the presence or absence of retrying is expressible: `safe_listdir` makes
exactly one attempt. -/

/-- Embedding of `safe_listdir` (src/app.py:15-21): one `os.listdir` call; an
`OSError`/`PermissionError` is caught and turned into `[]`. -/
def safe_listdir (listdirAttempts : Nat → Except String (List String)) : List String :=
  match listdirAttempts 0 with
  | .ok names => names
  | .error _ => []

/-- Modelled from the spec: the retrying `listDirectories` of section 4.2 is
absent from `src/app.py` (`safe_listdir` performs a single attempt).  As the
spec words it, an implementation applies a bounded retry — up to 8 attempts,
with growing delays — returning the first successful listing, and `[]` only
after all 8 attempts fail.  The backoff delays are real time and are not
modelled; only the attempt count is. -/
def listDirectories_spec (listdirAttempts : Nat → Except String (List String)) : List String :=
  (((List.range 8).findSome? fun k => (listdirAttempts k).toOption)).getD []

/-! ## Artwork Cache (`copy_to_cache`, src/app.py:91-116)

The state visible to one `copy_to_cache(source_path, directory, filename)`
call: the source file's mtime, the cached copy's mtime (`none` when
`os.path.exists(cache_path)` is false), whether `os.path.getmtime` succeeds on
both files (`mtimeOk`, SMB may refuse), and whether the read/write copy
succeeds (`ioOk`, the outer `try` of the function).  A successful copy stamps
the cached file with the wall-clock time `now` of the write. -/

structure CacheCopyState where
  sourceMtime : Nat
  cacheMtime : Option Nat
  mtimeOk : Bool
  ioOk : Bool
deriving DecidableEq, Repr

/-- Embedding of `copy_to_cache` (src/app.py:91-116): when a cached copy
exists and `getmtime(source) <= getmtime(cache)` the copy is skipped
(`False`); a failing mtime comparison also skips; otherwise the file content
is read and rewritten (cache mtime becomes `now`) and `True` is returned; any
I/O failure yields `False` with the state unchanged. -/
def copy_to_cache (st : CacheCopyState) (now : Nat) : Bool × CacheCopyState :=
  match st.cacheMtime with
  | some cm =>
    if st.mtimeOk then
      if st.sourceMtime ≤ cm then (false, st)
      else if st.ioOk then (true, { st with cacheMtime := some now })
      else (false, st)
    else (false, st)
  | none =>
    if st.ioOk then (true, { st with cacheMtime := some now })
    else (false, st)

/-! ## Scan Cache patch (`update_single_cache_entry`, src/app.py:170-222)

Items are the dictionaries produced by `get_artwork_data` (src/app.py:394-409);
`directory` and `path` are read with `.get` in the source, so they are
`Option`-valued here.  The filesystem and the md5 hex digest used for cache
URLs are supplied as oracles. -/

structure FsEnv where
  pathExists : String → Bool
  md5hex : String → String

structure CacheItem where
  title : String
  clean_id : String
  artwork_dimensions : Option String
  artwork_last_modified : Option String
  tmdb_id : Option Nat
  directory : Option String
  path : Option String
  has_artwork : Bool
  artwork_status : Option String
  artwork_thumb : Option String
deriving DecidableEq, Repr

/-- Embedding of `os.path.basename`: the part after the last `/`. -/
def basename (p : String) : String :=
  ((p.splitOn "/").getLast?).getD ""

/-- Lookup of `ARTWORK_TYPES[artwork_type]['file_prefix']`
(src/app.py:277-299): defined for the three configured artwork types, whose
file stem equals the type key; a missing key raises `KeyError`, which the
caller's `except` turns into `False`. -/
def file_prefix_of (artwork_type : String) : Option String :=
  if artwork_type = "poster" ∨ artwork_type = "logo" ∨ artwork_type = "backdrop" then
    some artwork_type
  else none

/-- Embedding of `get_cached_artwork_url` (src/app.py:118-122). -/
def get_cached_artwork_url (env : FsEnv) (directory filename : String) : String :=
  "/cache/" ++ env.md5hex directory ++ "/" ++ filename

/-- First extension in `['jpg', 'jpeg', 'png']` for which the full artwork
file exists (the `for ext` loop at src/app.py:193-209 breaks there). -/
def findArtworkExt (env : FsEnv) (directory_path fp : String) : Option String :=
  ["jpg", "jpeg", "png"].find? fun ext =>
    env.pathExists (directory_path ++ "/" ++ fp ++ "." ++ ext)

/-- Update applied to the one matched item (src/app.py:188-209): when an
artwork file exists, `has_artwork`/`artwork_status` are set, and
`artwork_thumb` is redirected to the cache URL when the thumbnail exists too
(the `copy_to_cache` call there touches only the thumbnail cache, not the scan
cache being patched). -/
def patchCacheItem (env : FsEnv) (fp directory_name directory_path : String)
    (item : CacheItem) : CacheItem :=
  match findArtworkExt env directory_path fp with
  | none => item
  | some ext =>
    let item' := { item with has_artwork := true, artwork_status := some "found" }
    let thumb_filename := fp ++ "-thumb." ++ ext
    if env.pathExists (directory_path ++ "/" ++ thumb_filename) then
      { item' with artwork_thumb := some (get_cached_artwork_url env directory_name thumb_filename) }
    else item'

/-- Loop of src/app.py:186-218 over `media_list`: the first item whose
`directory` equals `basename(directory_path)` or whose `path` equals
`directory_path` is patched and the function returns `True` at once; with no
match it returns `False`. -/
def patchCacheList (env : FsEnv) (fp directory_name directory_path : String) :
    List CacheItem → Bool × List CacheItem
  | [] => (false, [])
  | item :: rest =>
    if item.directory = some directory_name ∨ item.path = some directory_path then
      (true, patchCacheItem env fp directory_name directory_path item :: rest)
    else
      let r := patchCacheList env fp directory_name directory_path rest
      (r.1, item :: r.2)

/-- Embedding of `update_single_cache_entry` (src/app.py:170-222) acting on
the `media_list` of an existing scan-cache file.  No rescan is involved: the
function reads and rewrites only the given items. -/
def update_single_cache_entry (env : FsEnv) (artwork_type directory_path : String)
    (items : List CacheItem) : Bool × List CacheItem :=
  match file_prefix_of artwork_type with
  | none => (false, items)
  | some fp => patchCacheList env fp (basename directory_path) directory_path items

/-! ## Unavailability Record (src/app.py:58-69 and 1072-1103)

The JSON document `{directory: {artwork_type: bool}}` is embedded as an
association list (Python dicts preserve insertion order); `load`/`save` become
explicit state passing. -/

abbrev UnavailableData : Type := List (String × List (String × Bool))

/-- Assignment `d[k] = v` on an association list: overwrite in place, append a
missing key, as a Python dict does. -/
def setAssoc {α : Type} (k : String) (v : α) : List (String × α) → List (String × α)
  | [] => [(k, v)]
  | (k', v') :: t => if k' = k then (k, v) :: t else (k', v') :: setAssoc k v t

/-- Embedding of `is_artwork_unavailable` (src/app.py:58-61):
`data.get(directory, {}).get(artwork_type, False)`. -/
def is_artwork_unavailable (data : UnavailableData) (directory artwork_type : String) : Bool :=
  match data.lookup directory with
  | none => false
  | some m => (m.lookup artwork_type).getD false

/-- Embedding of `mark_artwork_unavailable` (src/app.py:63-69): create the
inner dict when missing, then set `data[directory][artwork_type]`.
Persistence is the whole-file JSON rewrite, modelled as returning the new
store. -/
def mark_artwork_unavailable (data : UnavailableData)
    (directory artwork_type : String) (unavailable : Bool) : UnavailableData :=
  let inner := (data.lookup directory).getD []
  setAssoc directory (setAssoc artwork_type unavailable inner) data

/-- Artwork-type keys of `ARTWORK_TYPES` (src/app.py:277-299). -/
def ARTWORK_TYPE_KEYS : List String := ["poster", "logo", "backdrop"]

/-- Embedding of the `/api/toggle_unavailable` handler (src/app.py:1072-1103):
after validating the inputs it reads the current flag, inverts it, stores the
new value and returns it; `none` is the 400 response for a missing directory
or artwork type or an unknown artwork type. -/
def toggle_unavailable (data : UnavailableData) (directory artwork_type : String) :
    Option (Bool × UnavailableData) :=
  if directory = "" ∨ artwork_type = "" then none
  else if ARTWORK_TYPE_KEYS.contains artwork_type then
    let current_status := is_artwork_unavailable data directory artwork_type
    let new_status := !current_status
    some (new_status, mark_artwork_unavailable data directory artwork_type new_status)
  else none

/-! ## Mapping Store and the full resolution pipeline (spec sections 4.3/4.4)

`src/app.py` contains no Mapping Store: `select_artwork` knows nothing of
external ids and always goes straight to exact/fuzzy matching.  The resolver
below is therefore modelled from the spec, reusing the normalizer and
similarity embeddings above for its later steps. -/

structure ResolveEnv where
  mapping : List (String × String)
  fsExists : String → Bool
  folders : List (String × List String)

/-- Step that decided a resolution request, with its result. -/
inductive ResolveOutcome where
  | hintMatch (p : String)
  | mapped (p : String)
  | exactNorm (p : String)
  | fuzzy (p : String)
  | manual (cands : List String)
deriving DecidableEq, Repr

/-- Modelled from the spec: step 1 of section 4.3 — a supplied
`directoryHint` accepted when some root has a child exactly so named. -/
def findHintDir (folders : List (String × List String)) (hint : String) : Option String :=
  folders.findSome? fun p => if p.2.contains hint then some (joinPath p.1 hint) else none

/-- Modelled from the spec: step 3 of section 4.3 — a directory whose
normalized name equals the normalized title. -/
def findExactNorm (folders : List (String × List String)) (title : String) : Option String :=
  folders.findSome? fun p =>
    p.2.findSome? fun d =>
      if normalize_title d = normalize_title title then some (joinPath p.1 d) else none

/-- Modelled from the spec: step 4 of section 4.3 — best similarity ratio over
every normalized directory name, with the directory attaining it. -/
def bestFuzzy (folders : List (String × List String)) (title : String) :
    ℚ × Option String :=
  folders.foldl
    (fun acc p =>
      p.2.foldl
        (fun acc d =>
          let s := simTitle title d
          if acc.1 < s then (s, some (joinPath p.1 d)) else acc)
        acc)
    (0, none)

/-- Modelled from the spec: the Match Resolver of section 4.3 with the Mapping
Store of section 4.4, both absent from `src/app.py`.  Resolution order: the
directory hint; then, when an `externalId` is supplied, the Mapping Store
entry `{mediaKind}_{externalId}` provided its stored path still exists; then
exact normalized match; then fuzzy match at the spec's default threshold 0.9;
then the manual-disambiguation candidate list. -/
def resolve (env : ResolveEnv) (title : String) (externalId : Option String)
    (mediaKind : String) (directoryHint : Option String) : ResolveOutcome :=
  match directoryHint.bind (findHintDir env.folders) with
  | some p => .hintMatch p
  | none =>
    match (externalId.bind fun i => env.mapping.lookup (mediaKind ++ "_" ++ i)).filter
        env.fsExists with
    | some p => .mapped p
    | none =>
      match findExactNorm env.folders title with
      | some p => .exactNorm p
      | none =>
        let best := bestFuzzy env.folders title
        match best.2 with
        | some p => if (9 : ℚ)/10 ≤ best.1 then .fuzzy p
            else .manual (get_close_matches title (env.folders.flatMap Prod.snd) 5 (1/2))
        | none => .manual (get_close_matches title (env.folders.flatMap Prod.snd) 5 (1/2))

/-- Best similarity score over a directory list, matching how
`best_similarity` accumulates at src/app.py:838-857 (starting from `0`). -/
def bestSimOver (title : String) (dirs : List String) : ℚ :=
  dirs.foldl (fun acc d => max acc (simTitle title d)) 0

/-- Relation between an input item and the corresponding output item of the
scan-cache patch: all non-artwork fields agree, and an item matching neither
by `directory` nor by `path` is completely unchanged. -/
def PatchFrame (directory_name directory_path : String) (old new : CacheItem) : Prop :=
  new.title = old.title ∧ new.clean_id = old.clean_id ∧
  new.artwork_dimensions = old.artwork_dimensions ∧
  new.artwork_last_modified = old.artwork_last_modified ∧
  new.tmdb_id = old.tmdb_id ∧ new.directory = old.directory ∧ new.path = old.path ∧
  (old.directory ≠ some directory_name → old.path ≠ some directory_path → new = old)

/-- Absence of two adjacent dashes in a character list. -/
def NoDoubleDash (l : List Char) : Prop :=
  l.Chain' fun a b => ¬(a = '-' ∧ b = '-')

/-! # Helper lemmas -/

theorem lookup_setAssoc_self {α : Type} (k : String) (v : α) (l : List (String × α)) :
    (setAssoc k v l).lookup k = some v := by
  induction l with
  | nil => simp [setAssoc, List.lookup]
  | cons p t ih =>
    obtain ⟨k', v'⟩ := p
    by_cases h : k' = k
    · simp [setAssoc, h, List.lookup]
    · have hne : (k == k') = false := beq_eq_false_iff_ne.mpr (Ne.symm h)
      simp only [setAssoc, if_neg h, List.lookup_cons, hne, ih]

theorem lookup_setAssoc_ne {α : Type} {k k' : String} (h : k' ≠ k) (v : α)
    (l : List (String × α)) : (setAssoc k v l).lookup k' = l.lookup k' := by
  induction l with
  | nil => simp [setAssoc, List.lookup, beq_eq_false_iff_ne.mpr h]
  | cons p t ih =>
    obtain ⟨k₀, v₀⟩ := p
    by_cases h₀ : k₀ = k
    · subst h₀
      simp [setAssoc, List.lookup_cons, beq_eq_false_iff_ne.mpr h]
    · simp only [setAssoc, if_neg h₀, List.lookup_cons, ih]

theorem is_artwork_unavailable_mark_self (data : UnavailableData)
    (dir k : String) (v : Bool) :
    is_artwork_unavailable (mark_artwork_unavailable data dir k v) dir k = v := by
  unfold is_artwork_unavailable mark_artwork_unavailable
  rw [lookup_setAssoc_self]
  show ((setAssoc k v ((data.lookup dir).getD [])).lookup k).getD false = v
  rw [lookup_setAssoc_self]
  rfl

theorem is_artwork_unavailable_mark_other (data : UnavailableData)
    {dir k dir' k' : String} (v : Bool) (h : dir' ≠ dir ∨ k' ≠ k) :
    is_artwork_unavailable (mark_artwork_unavailable data dir k v) dir' k' =
      is_artwork_unavailable data dir' k' := by
  unfold is_artwork_unavailable mark_artwork_unavailable
  by_cases hd : dir' = dir
  · subst hd
    have hk : k' ≠ k := h.resolve_left (fun hc => hc rfl)
    rw [lookup_setAssoc_self]
    cases hl : data.lookup dir' with
    | none => simp [hl, lookup_setAssoc_ne hk]
    | some m => simp [hl, lookup_setAssoc_ne hk]
  · rw [lookup_setAssoc_ne hd]

theorem charOfNat_toNat {n : Nat} (h : n.isValidChar) : (Char.ofNat n).toNat = n := by
  simp [Char.ofNat, h, Char.toNat, Char.ofNatAux, UInt32.toNat, BitVec.toNat_ofNatLt]

theorem charToLower_idem (c : Char) : c.toLower.toLower = c.toLower := by
  unfold Char.toLower
  by_cases h : c.toNat ≥ 65 ∧ c.toNat ≤ 90
  · rw [if_pos h]
    have hv : Nat.isValidChar (c.toNat + 32) := Or.inl (by omega)
    have h2 : (Char.ofNat (c.toNat + 32)).toNat = c.toNat + 32 := charOfNat_toNat hv
    rw [if_neg (by omega)]
  · rw [if_neg h, if_neg h]

theorem pyLower_idem (s : String) : pyLower (pyLower s) = pyLower s := by
  unfold pyLower
  congr 1
  rw [List.map_map]
  exact List.map_congr_left fun c _ => charToLower_idem c

/-! # Claim C10: `mark_artwork_unavailable` frame property -/

/-- C10: `mark_artwork_unavailable(directory, kind, v)` sets exactly the flag
of that `(directory, kind)` pair to `v`; the flag of every other directory,
and of every other artwork kind of the same directory, reads unchanged; a pair
never written reads `false` (the empty store reads `false` everywhere). -/
theorem mark_artwork_unavailable_frame (data : UnavailableData)
    (dir k : String) (v : Bool) (dir' k' : String) (h : dir' ≠ dir ∨ k' ≠ k) :
    is_artwork_unavailable (mark_artwork_unavailable data dir k v) dir k = v ∧
    is_artwork_unavailable (mark_artwork_unavailable data dir k v) dir' k' =
      is_artwork_unavailable data dir' k' ∧
    is_artwork_unavailable ([] : UnavailableData) dir' k' = false :=
  ⟨is_artwork_unavailable_mark_self data dir k v,
   is_artwork_unavailable_mark_other data v h, rfl⟩

theorem mark_artwork_unavailable_frame_witness :
    is_artwork_unavailable
        (mark_artwork_unavailable [] "Breaking Bad (2008)" "poster" true)
        "Breaking Bad (2008)" "poster" = true ∧
    is_artwork_unavailable
        (mark_artwork_unavailable [] "Breaking Bad (2008)" "poster" true)
        "Breaking Bad (2008)" "logo" =
      is_artwork_unavailable [] "Breaking Bad (2008)" "logo" ∧
    is_artwork_unavailable ([] : UnavailableData) "Breaking Bad (2008)" "logo" = false :=
  mark_artwork_unavailable_frame [] "Breaking Bad (2008)" "poster" true
    "Breaking Bad (2008)" "logo" (Or.inr (by decide))

/-! # Claim C7: toggling unavailability is an involution -/

/-- C7: the toggle handler reads the current flag, inverts it, stores it, and
returns the new value (`v₁` equals the stored flag after the first toggle);
toggling a second time returns the flag to its original boolean value and
returns the negation of the first response. -/
theorem toggle_unavailable_involution (data : UnavailableData) (dir k : String)
    (v₁ v₂ : Bool) (d₁ d₂ : UnavailableData)
    (h₁ : toggle_unavailable data dir k = some (v₁, d₁))
    (h₂ : toggle_unavailable d₁ dir k = some (v₂, d₂)) :
    v₁ = is_artwork_unavailable d₁ dir k ∧
    v₂ = !v₁ ∧
    is_artwork_unavailable d₂ dir k = is_artwork_unavailable data dir k := by
  unfold toggle_unavailable at h₁ h₂
  by_cases hv : dir = "" ∨ k = ""
  · rw [if_pos hv] at h₁; exact absurd h₁ (by simp)
  rw [if_neg hv] at h₁ h₂
  by_cases hk : ARTWORK_TYPE_KEYS.contains k
  · rw [if_pos hk] at h₁ h₂
    have e₁ := Option.some.inj h₁
    have e₂ := Option.some.inj h₂
    have hv₁ : v₁ = !is_artwork_unavailable data dir k := (Prod.mk.injEq _ _ _ _ ▸ e₁).1.symm
    have hd₁ : d₁ = mark_artwork_unavailable data dir k (!is_artwork_unavailable data dir k) :=
      (Prod.mk.injEq _ _ _ _ ▸ e₁).2.symm
    have hv₂ : v₂ = !is_artwork_unavailable d₁ dir k := (Prod.mk.injEq _ _ _ _ ▸ e₂).1.symm
    have hd₂ : d₂ = mark_artwork_unavailable d₁ dir k (!is_artwork_unavailable d₁ dir k) :=
      (Prod.mk.injEq _ _ _ _ ▸ e₂).2.symm
    have hread₁ : is_artwork_unavailable d₁ dir k = !is_artwork_unavailable data dir k := by
      rw [hd₁, is_artwork_unavailable_mark_self]
    refine ⟨by rw [hv₁, hread₁], by rw [hv₂, hv₁, hread₁], ?_⟩
    rw [hd₂, is_artwork_unavailable_mark_self, hread₁, Bool.not_not]
  · rw [if_neg hk] at h₁; exact absurd h₁ (by simp)

theorem toggle_unavailable_involution_witness :
    toggle_unavailable [] "Show X" "poster" =
      some (true, [("Show X", [("poster", true)])]) ∧
    toggle_unavailable [("Show X", [("poster", true)])] "Show X" "poster" =
      some (false, [("Show X", [("poster", false)])]) ∧
    (true = is_artwork_unavailable [("Show X", [("poster", true)])] "Show X" "poster" ∧
      false = !true ∧
      is_artwork_unavailable [("Show X", [("poster", false)])] "Show X" "poster" =
        is_artwork_unavailable [] "Show X" "poster") :=
  ⟨by decide, by decide,
   toggle_unavailable_involution [] "Show X" "poster" true false
     [("Show X", [("poster", true)])] [("Show X", [("poster", false)])]
     (by decide) (by decide)⟩

/-! # Claim C9: sort key lowercases and strips a leading "The " -/

/-- C9: the sort key used by `get_artwork_data`,
`strip_leading_the(title.lower())`, lowercases the title and removes exactly
the four leading characters `"the "` when the lowercased title starts with
them; otherwise it is the lowercased title unchanged. -/
theorem sortKey_strips_leading_the (title : String) :
    (pyStartswith (pyLower title) "the " = true →
      sortKey title = pySlice4 (pyLower title)) ∧
    (pyStartswith (pyLower title) "the " = false →
      sortKey title = pyLower title) := by
  unfold sortKey strip_leading_the
  rw [pyLower_idem]
  constructor
  · intro h; rw [h]; simp
  · intro h; rw [h]; simp

theorem sortKey_strips_leading_the_witness :
    (sortKey "The Matrix" = pySlice4 (pyLower "The Matrix") ∧
      sortKey "The Matrix" = "matrix") ∧
    sortKey "Matrix Reloaded" = pyLower "Matrix Reloaded" :=
  ⟨⟨(sortKey_strips_leading_the "The Matrix").1 (by decide), by decide⟩,
   (sortKey_strips_leading_the "Matrix Reloaded").2 (by decide)⟩

/-! # Claim C5: `copy_to_cache` copies only when the source is strictly newer -/

/-- C5: a copy is performed only when no cached copy exists or the cached
mtime is strictly older than the source's; and when the first call happens no
earlier than the source's mtime (`hnow`), an immediately repeated call with
the source mtime unchanged performs no write (the state is returned intact)
and reports `false` ("unchanged"). -/
theorem copy_to_cache_second_call_unchanged (st : CacheCopyState) (now₁ now₂ : Nat)
    (hnow : st.sourceMtime ≤ now₁) :
    ((copy_to_cache st now₁).1 = true →
      st.cacheMtime = none ∨ ∃ cm, st.cacheMtime = some cm ∧ cm < st.sourceMtime) ∧
    copy_to_cache (copy_to_cache st now₁).2 now₂ = (false, (copy_to_cache st now₁).2) := by
  obtain ⟨sm, cm?, mok, iok⟩ := st
  change sm ≤ now₁ at hnow
  unfold copy_to_cache
  cases cm? with
  | none =>
    cases iok with
    | false => simp
    | true => simp; omega
  | some cm =>
    cases mok with
    | false => simp
    | true =>
      by_cases hle : sm ≤ cm
      · simp [hle]
      · cases iok with
        | false => simp [hle]
        | true =>
          simp [hle]
          omega

theorem copy_to_cache_second_call_unchanged_witness :
    ((copy_to_cache ⟨5, none, true, true⟩ 7).1 = true →
      (⟨5, none, true, true⟩ : CacheCopyState).cacheMtime = none ∨
        ∃ cm, (⟨5, none, true, true⟩ : CacheCopyState).cacheMtime = some cm ∧ cm < 5) ∧
    copy_to_cache (copy_to_cache ⟨5, none, true, true⟩ 7).2 9 =
      (false, (copy_to_cache ⟨5, none, true, true⟩ 7).2) :=
  copy_to_cache_second_call_unchanged ⟨5, none, true, true⟩ 7 9 (by decide)

/-! # Claim C4: `safe_listdir` and the retry policy -/

/-- C4 counterexample: an oracle whose first `os.listdir` attempt fails with a
transient error and whose second attempt succeeds.  `safe_listdir` returns
`[]` without retrying, while the retrying `listDirectories` of the spec would
return the successful second listing. -/
theorem safe_listdir_no_retry_counterexample :
    safe_listdir (fun n => if n = 0 then .error "EAGAIN" else .ok ["Show A"]) = [] ∧
    (fun n => if n = 0 then (.error "EAGAIN" : Except String (List String))
        else .ok ["Show A"]) 1 = .ok ["Show A"] ∧
    listDirectories_spec (fun n => if n = 0 then .error "EAGAIN" else .ok ["Show A"]) =
      ["Show A"] :=
  ⟨rfl, rfl, rfl⟩

/-- C4 (amended): `safe_listdir` never propagates an I/O error, but performs
no retry at all: it makes a single `os.listdir` attempt, returns its listing
on success and `[]` immediately on failure, and its result depends only on
that first attempt. -/
theorem safe_listdir_single_attempt (fs : Nat → Except String (List String)) :
    (∀ names, fs 0 = .ok names → safe_listdir fs = names) ∧
    (∀ e, fs 0 = .error e → safe_listdir fs = []) ∧
    (∀ fs' : Nat → Except String (List String), fs' 0 = fs 0 →
      safe_listdir fs' = safe_listdir fs) := by
  refine ⟨fun names h => ?_, fun e h => ?_, fun fs' h => ?_⟩
  · unfold safe_listdir; rw [h]
  · unfold safe_listdir; rw [h]
  · unfold safe_listdir; rw [h]

theorem safe_listdir_single_attempt_witness :
    safe_listdir (fun _ => .ok ["Movies"]) = ["Movies"] :=
  (safe_listdir_single_attempt (fun _ => .ok ["Movies"])).1 ["Movies"] rfl

/-! # Claim C2: the Mapping Store short-circuits resolution -/

/-- C2: for every resolution request carrying an `externalId` (and no
directory hint), when the Mapping Store holds an entry for
`{mediaKind}_{externalId}` whose stored path still exists, `resolve` answers
with that stored path through the mapping step — the exact/fuzzy comparison
steps are never reached, whatever the title (the statement imposes no
relation between `title` and the stored path). -/
theorem resolve_mapping_short_circuit (env : ResolveEnv) (title : String)
    (externalId mediaKind : String) (p : String)
    (hm : env.mapping.lookup (mediaKind ++ "_" ++ externalId) = some p)
    (he : env.fsExists p = true) :
    resolve env title (some externalId) mediaKind none = .mapped p := by
  unfold resolve
  simp [hm, Option.filter, he]

theorem resolve_mapping_short_circuit_witness :
    resolve ⟨[("movie_603", "/movies/The Matrix (1999)")], fun _ => true,
        [("/movies", ["The Matrix (1999)"])]⟩ "Matrix" (some "603") "movie" none =
      .mapped "/movies/The Matrix (1999)" :=
  resolve_mapping_short_circuit _ "Matrix" "603" "movie" "/movies/The Matrix (1999)"
    (by decide) rfl

/-! # Claim C6: the scan-cache patch is local -/

/-- Fields of a cache item that `update_single_cache_entry` may touch are only
`has_artwork`, `artwork_status` and `artwork_thumb`; everything else survives
`patchCacheItem` unchanged. -/
theorem patchCacheItem_preserves (env : FsEnv) (fp dn dp : String) (it : CacheItem) :
    (patchCacheItem env fp dn dp it).title = it.title ∧
    (patchCacheItem env fp dn dp it).clean_id = it.clean_id ∧
    (patchCacheItem env fp dn dp it).artwork_dimensions = it.artwork_dimensions ∧
    (patchCacheItem env fp dn dp it).artwork_last_modified = it.artwork_last_modified ∧
    (patchCacheItem env fp dn dp it).tmdb_id = it.tmdb_id ∧
    (patchCacheItem env fp dn dp it).directory = it.directory ∧
    (patchCacheItem env fp dn dp it).path = it.path := by
  unfold patchCacheItem
  cases findArtworkExt env dp fp with
  | none => simp
  | some ext =>
    by_cases ht : env.pathExists (dp ++ "/" ++ (fp ++ "-thumb." ++ ext)) <;> simp [ht]

theorem patchCacheList_frame (env : FsEnv) (fp dn dp : String) (items : List CacheItem) :
    List.Forall₂ (PatchFrame dn dp) items (patchCacheList env fp dn dp items).2 := by
  induction items with
  | nil => exact List.Forall₂.nil
  | cons it rest ih =>
    unfold patchCacheList
    by_cases hm : it.directory = some dn ∨ it.path = some dp
    · rw [if_pos hm]
      refine List.Forall₂.cons ?_ (List.forall₂_same.mpr fun x _ => ?_)
      · obtain ⟨h1, h2, h3, h4, h5, h6, h7⟩ := patchCacheItem_preserves env fp dn dp it
        exact ⟨h1, h2, h3, h4, h5, h6, h7, fun hnd hnp => absurd hm (by tauto)⟩
      · exact ⟨rfl, rfl, rfl, rfl, rfl, rfl, rfl, fun _ _ => rfl⟩
    · rw [if_neg hm]
      exact List.Forall₂.cons ⟨rfl, rfl, rfl, rfl, rfl, rfl, rfl, fun _ _ => rfl⟩ ih

/-- C6: `update_single_cache_entry` preserves the item count, changes no
non-artwork field of any item, and leaves every item whose `directory` does
not match `basename(directory_path)` and whose `path` does not match
`directory_path` entirely unchanged (so only the matched item's
artwork-presence/thumbnail fields can change).  The function is a pure
rewrite of the given items: no rescan is involved. -/
theorem update_single_cache_entry_frame (env : FsEnv)
    (artwork_type directory_path : String) (items : List CacheItem) :
    (update_single_cache_entry env artwork_type directory_path items).2.length =
      items.length ∧
    List.Forall₂ (PatchFrame (basename directory_path) directory_path) items
      (update_single_cache_entry env artwork_type directory_path items).2 := by
  unfold update_single_cache_entry
  cases hfp : file_prefix_of artwork_type with
  | none =>
    exact ⟨rfl, List.forall₂_same.mpr fun x _ => ⟨rfl, rfl, rfl, rfl, rfl, rfl, rfl, fun _ _ => rfl⟩⟩
  | some fp =>
    have h := patchCacheList_frame env fp (basename directory_path) directory_path items
    exact ⟨h.length_eq.symm, h⟩

theorem update_single_cache_entry_frame_witness :
    (update_single_cache_entry ⟨fun _ => true, fun _ => "d41d8cd9"⟩ "poster" "/movies/A"
        [⟨"A", "a", none, none, none, some "A", some "/movies/A", false, none, none⟩,
         ⟨"B", "b", none, none, none, some "B", some "/movies/B", false, none, none⟩]).2.length = 2 ∧
    List.Forall₂ (PatchFrame (basename "/movies/A") "/movies/A")
      [⟨"A", "a", none, none, none, some "A", some "/movies/A", false, none, none⟩,
       ⟨"B", "b", none, none, none, some "B", some "/movies/B", false, none, none⟩]
      (update_single_cache_entry ⟨fun _ => true, fun _ => "d41d8cd9"⟩ "poster" "/movies/A"
        [⟨"A", "a", none, none, none, some "A", some "/movies/A", false, none, none⟩,
         ⟨"B", "b", none, none, none, some "B", some "/movies/B", false, none, none⟩]).2 :=
  update_single_cache_entry_frame ⟨fun _ => true, fun _ => "d41d8cd9"⟩ "poster" "/movies/A"
    [⟨"A", "a", none, none, none, some "A", some "/movies/A", false, none, none⟩,
     ⟨"B", "b", none, none, none, some "B", some "/movies/B", false, none, none⟩]

/-! # Claim C8: `generate_clean_id` dash shape -/

theorem isLowerAlnum_ne_dash {c : Char} (h : isLowerAlnum c = true) : c ≠ '-' := by
  intro hc
  rw [hc] at h
  simp [isLowerAlnum] at h

theorem head?_dropWhile_false {p : Char → Bool} {l : List Char} {a : Char}
    (h : (l.dropWhile p).head? = some a) : p a = false := by
  have hp := List.head?_dropWhile_not p l
  rw [h] at hp
  exact hp

theorem noDoubleDash_reverse {l : List Char} (h : NoDoubleDash l) :
    NoDoubleDash l.reverse := by
  rw [NoDoubleDash, List.chain'_reverse]
  exact h.imp fun a b hab ⟨h1, h2⟩ => hab ⟨h2, h1⟩

theorem getLast?_of_suffix {l' l : List Char} {a : Char} (h : l' <:+ l)
    (hne : l'.getLast? = some a) : l.getLast? = some a := by
  obtain ⟨t, rfl⟩ := h
  rw [List.getLast?_append, hne]
  rfl

theorem replaceRunsAux_shape (l : List Char) :
    (NoDoubleDash (replaceRunsAux true l) ∧ (replaceRunsAux true l).head? ≠ some '-') ∧
      NoDoubleDash (replaceRunsAux false l) := by
  induction l with
  | nil =>
    refine ⟨⟨?_, ?_⟩, ?_⟩ <;> simp [replaceRunsAux, NoDoubleDash]
  | cons c rest ih =>
    by_cases hc : isLowerAlnum c
    · have hcne : c ≠ '-' := isLowerAlnum_ne_dash hc
      have hchain : NoDoubleDash (c :: replaceRunsAux false rest) := by
        rw [NoDoubleDash, List.chain'_cons']
        exact ⟨fun y _ hy => hcne hy.1, ih.2⟩
      refine ⟨⟨?_, ?_⟩, ?_⟩
      · simpa [replaceRunsAux, hc] using hchain
      · simp only [replaceRunsAux, if_pos hc, List.head?_cons]
        exact fun hcon => hcne (Option.some.inj hcon)
      · simpa [replaceRunsAux, hc] using hchain
    · refine ⟨⟨?_, ?_⟩, ?_⟩
      · simpa [replaceRunsAux, hc] using ih.1.1
      · simpa [replaceRunsAux, hc] using ih.1.2
      · have hstep : replaceRunsAux false (c :: rest) = '-' :: replaceRunsAux true rest := by
          simp [replaceRunsAux, hc]
        rw [hstep, NoDoubleDash, List.chain'_cons']
        refine ⟨fun y hy hcon => ?_, ih.1.1⟩
        have hhead : (replaceRunsAux true rest).head? = some y := Option.mem_def.mp hy
        exact ih.1.2 (by rw [hhead, hcon.2])

/-- C8: for every title (the empty string included), `generate_clean_id`
produces a slug with no leading dash, no trailing dash, and no two adjacent
dashes: runs of non-alphanumeric characters collapse to one dash and boundary
dashes are stripped. -/
theorem generate_clean_id_dash_shape (title : String) :
    (generate_clean_id title).data.head? ≠ some '-' ∧
    (generate_clean_id title).data.getLast? ≠ some '-' ∧
    NoDoubleDash (generate_clean_id title).data := by
  unfold generate_clean_id pyStripDash replaceRuns
  set x := replaceRunsAux false (pyLower title).data with hx
  set y := x.dropWhile (· = '-') with hy
  set w := y.reverse.dropWhile (· = '-') with hw
  have hyhead : ∀ a, y.head? = some a → a ≠ '-' := by
    intro a ha
    exact of_decide_eq_false (head?_dropWhile_false ha)
  have hwhead : ∀ a, w.head? = some a → a ≠ '-' := by
    intro a ha
    exact of_decide_eq_false (head?_dropWhile_false ha)
  have hchain : NoDoubleDash w.reverse := by
    have h1 : NoDoubleDash x := (replaceRunsAux_shape (pyLower title).data).2
    have h2 : NoDoubleDash y := h1.suffix (List.dropWhile_suffix _)
    have h3 : NoDoubleDash y.reverse := noDoubleDash_reverse h2
    have h4 : NoDoubleDash w := h3.suffix (List.dropWhile_suffix _)
    exact noDoubleDash_reverse h4
  refine ⟨?_, ?_, hchain⟩
  · show w.reverse.head? ≠ some '-'
    rw [List.head?_reverse]
    cases hwl : w.getLast? with
    | none => simp
    | some a =>
      intro hcon
      have ha : a = '-' := Option.some.inj hcon
      have : y.reverse.getLast? = some a :=
        getLast?_of_suffix (List.dropWhile_suffix _) hwl
      rw [List.getLast?_reverse] at this
      exact hyhead a this ha
  · show w.reverse.getLast? ≠ some '-'
    rw [List.getLast?_reverse]
    cases hwh : w.head? with
    | none => simp
    | some a =>
      intro hcon
      exact hwhead a hwh (Option.some.inj hcon)

/-! # Loop invariants of the `select_artwork` scan -/

theorem if_lt_eq_max (a b : ℚ) : (if a < b then b else a) = max a b := by
  by_cases h : a < b
  · rw [if_pos h]; exact (max_eq_right (le_of_lt h)).symm
  · rw [if_neg h]; exact (max_eq_left (not_lt.mp h)).symm

theorem scanDirs_of_not_mem (t bf : String) {ds : List String} (h : t ∉ ds) :
    ∀ (best : ℚ) (bd : Option String),
      (scanDirs t bf ds best bd).2.2 = none ∧
      (scanDirs t bf ds best bd).1 =
        ds.foldl (fun acc d => max acc (simTitle t d)) best := by
  induction ds with
  | nil => exact fun best bd => ⟨rfl, rfl⟩
  | cons d ds ih =>
    intro best bd
    have hd : ¬(d = t) := fun hc => h (hc ▸ List.mem_cons_self d ds)
    have hmem : t ∉ ds := fun hc => h (List.mem_cons_of_mem _ hc)
    simp only [scanDirs, if_neg hd]
    refine ⟨(ih hmem _ _).1, ?_⟩
    rw [(ih hmem _ _).2, List.foldl_cons, if_lt_eq_max]

theorem scanDirs_save_isSome (t bf : String) {ds : List String} (h : t ∈ ds) :
    ∀ (best : ℚ) (bd : Option String),
      ((scanDirs t bf ds best bd).2.2).isSome = true := by
  induction ds with
  | nil => cases h
  | cons d ds ih =>
    intro best bd
    by_cases hd : d = t
    · simp only [scanDirs, if_pos hd]
      rfl
    · have hmem : t ∈ ds := by
        cases List.mem_cons.mp h with
        | inl he => exact absurd he.symm hd
        | inr hm => exact hm
      simp only [scanDirs, if_neg hd]
      exact ih hmem _ _

theorem scanFolders_of_not_mem (t : String) {fs : List (String × List String)}
    (h : ∀ p ∈ fs, t ∉ p.2) :
    ∀ (best : ℚ) (bd : Option String) (poss : List String),
      (scanFolders t fs best bd poss).2.2.1 = none ∧
      (scanFolders t fs best bd poss).2.2.2 = poss ++ fs.flatMap Prod.snd ∧
      (scanFolders t fs best bd poss).1 =
        (fs.flatMap Prod.snd).foldl (fun acc d => max acc (simTitle t d)) best := by
  induction fs with
  | nil => exact fun best bd poss => ⟨rfl, by simp [scanFolders], rfl⟩
  | cons p fs ih =>
    intro best bd poss
    obtain ⟨bf, dirs⟩ := p
    have h1 : t ∉ dirs := h (bf, dirs) (List.mem_cons_self _ _)
    have h2 : ∀ q ∈ fs, t ∉ q.2 := fun q hq => h q (List.mem_cons_of_mem _ hq)
    have hs := scanDirs_of_not_mem t bf h1 best bd
    simp only [scanFolders]
    rw [hs.1]
    refine ⟨(ih h2 _ _ _).1, ?_, ?_⟩
    · rw [(ih h2 _ _ _).2.1, List.flatMap_cons, List.append_assoc]
    · rw [(ih h2 _ _ _).2.2, hs.2, List.flatMap_cons, List.foldl_append]

theorem scanFolders_save_isSome (t : String) {fs : List (String × List String)}
    (h : ∃ p ∈ fs, t ∈ p.2) :
    ∀ (best : ℚ) (bd : Option String) (poss : List String),
      ((scanFolders t fs best bd poss).2.2.1).isSome = true := by
  induction fs with
  | nil => obtain ⟨p, hp, _⟩ := h; cases hp
  | cons q fs ih =>
    intro best bd poss
    obtain ⟨bf, dirs⟩ := q
    by_cases h1 : t ∈ dirs
    · have hv := scanDirs_save_isSome t bf h1 best bd
      simp only [scanFolders]
      cases hs : (scanDirs t bf dirs best bd).2.2 with
      | none => rw [hs] at hv; simp at hv
      | some s => rfl
    · obtain ⟨p, hp, htp⟩ := h
      have hpfs : p ∈ fs := by
        cases List.mem_cons.mp hp with
        | inl he => rw [he] at htp; exact absurd htp h1
        | inr hm => exact hm
      have hs := scanDirs_of_not_mem t bf h1 best bd
      simp only [scanFolders]
      rw [hs.1]
      exact ih ⟨p, hpfs, htp⟩ _ _ _

theorem select_artwork_match_of_save_none {t : String} {fs : List (String × List String)}
    (h : (scanFolders t fs 0 none []).2.2.1 = none) :
    select_artwork_match t fs =
      if similarity_threshold ≤ (scanFolders t fs 0 none []).1 then
        .fuzzyMatch (scanFolders t fs 0 none []).2.1
      else .manual (get_close_matches t (scanFolders t fs 0 none []).2.2.2 5 (1/2)) := by
  unfold select_artwork_match
  simp only [h]

theorem select_artwork_match_of_save_some {t : String} {fs : List (String × List String)}
    {s : String} (h : (scanFolders t fs 0 none []).2.2.1 = some s) :
    select_artwork_match t fs = .exactMatch s := by
  unfold select_artwork_match
  simp only [h]

/-! # Claim C1: the fuzzy-match threshold -/

/-- C1 counterexample: with the single directory `"aaaaaaaabb"` and the title
`"aaaaaaaa"`, the best similarity is `8/9 ≈ 0.889`, strictly below `0.9` —
yet `select_artwork` auto-accepts the directory, because the threshold coded
at src/app.py:887 is `0.8`, not the claimed `0.9`. -/
theorem fuzzy_accepted_below_point_nine :
    simTitle "aaaaaaaa" "aaaaaaaabb" < 9/10 ∧
    select_artwork_match "aaaaaaaa" [("base", ["aaaaaaaabb"])] =
      .fuzzyMatch (some (joinPath "base" "aaaaaaaabb")) := by
  have hm : matchTotal (normalize_title "aaaaaaaa").data
      (normalize_title "aaaaaaaabb").data = 8 := by decide
  have h1 : (normalize_title "aaaaaaaa").data.length = 8 := by decide
  have h2 : (normalize_title "aaaaaaaabb").data.length = 10 := by decide
  have hsim : simTitle "aaaaaaaa" "aaaaaaaabb" = 8/9 := by
    rw [simTitle, ratioOf, hm, h1, h2]
    norm_num
  refine ⟨by rw [hsim]; norm_num, ?_⟩
  have hne : ("aaaaaaaabb" : String) ≠ "aaaaaaaa" := by decide
  simp only [select_artwork_match, scanFolders, scanDirs, if_neg hne, hsim,
    similarity_threshold]
  norm_num

/-- C1 (amended): when no directory equals the title verbatim,
`select_artwork` accepts the best-scoring directory exactly when the best
similarity reaches the hardcoded threshold `0.8`; any input whose best score
is below `0.8` falls through to the manual-disambiguation candidate list. -/
theorem select_artwork_fuzzy_threshold (media_title : String)
    (folders : List (String × List String))
    (hne : ∀ p ∈ folders, media_title ∉ p.2) :
    (bestSimOver media_title (folders.flatMap Prod.snd) < similarity_threshold →
      select_artwork_match media_title folders =
        .manual (get_close_matches media_title (folders.flatMap Prod.snd) 5 (1/2))) ∧
    (similarity_threshold ≤ bestSimOver media_title (folders.flatMap Prod.snd) →
      ∃ d, select_artwork_match media_title folders = .fuzzyMatch d) := by
  have h := scanFolders_of_not_mem media_title hne 0 none []
  have hb : (scanFolders media_title folders 0 none []).1 =
      bestSimOver media_title (folders.flatMap Prod.snd) := h.2.2
  have hred := select_artwork_match_of_save_none h.1
  constructor
  · intro hlow
    rw [hred, if_neg (by rw [hb]; exact not_le.mpr hlow), h.2.1, List.nil_append]
  · intro hhigh
    exact ⟨_, by rw [hred, if_pos (by rw [hb]; exact hhigh)]⟩

theorem select_artwork_fuzzy_threshold_witness :
    select_artwork_match "zzz" [("b", ["qqq"])] =
      .manual (get_close_matches "zzz" ([("b", ["qqq"])].flatMap Prod.snd) 5 (1/2)) :=
  (select_artwork_fuzzy_threshold "zzz" [("b", ["qqq"])] (by decide)).1 (by
    have hm : matchTotal (normalize_title "zzz").data (normalize_title "qqq").data = 0 := by
      decide
    have h1 : (normalize_title "zzz").data.length = 3 := by decide
    have h2 : (normalize_title "qqq").data.length = 3 := by decide
    have hsim : simTitle "zzz" "qqq" = 0 := by
      rw [simTitle, ratioOf, hm, h1, h2]
      norm_num
    simp only [List.flatMap_cons, List.flatMap_nil, List.append_nil, bestSimOver,
      List.foldl_cons, List.foldl_nil, hsim, similarity_threshold]
    norm_num)

/-! # Claim C3: the exact-match step compares raw names, not normalized ones -/

/-- C3 counterexample: `"the matrix"` and `"The Matrix"` have equal normalized
keys, but the exact-match step of `select_artwork` compares
`directory == media_title` verbatim (src/app.py:860), so the directory is not
accepted as an exact match — it is only caught by the fuzzy step (similarity
`1.0`). -/
theorem exact_step_requires_verbatim_name :
    normalize_title "the matrix" = normalize_title "The Matrix" ∧
    select_artwork_match "The Matrix" [("b", ["the matrix"])] =
      .fuzzyMatch (some (joinPath "b" "the matrix")) := by
  have hm : matchTotal (normalize_title "The Matrix").data
      (normalize_title "the matrix").data = 9 := by decide
  have h1 : (normalize_title "The Matrix").data.length = 9 := by decide
  have h2 : (normalize_title "the matrix").data.length = 9 := by decide
  have hsim : simTitle "The Matrix" "the matrix" = 1 := by
    rw [simTitle, ratioOf, hm, h1, h2]
    norm_num
  have hne : ("the matrix" : String) ≠ "The Matrix" := by decide
  refine ⟨by decide, ?_⟩
  simp only [select_artwork_match, scanFolders, scanDirs, if_neg hne, hsim,
    similarity_threshold]
  norm_num

/-- C3 (amended): a directory is accepted by the exact-match step of
`select_artwork` precisely when some scanned root contains a directory whose
name equals the title verbatim — equality of normalized names is not enough
(normalization only feeds the similarity score of the fuzzy step). -/
theorem select_artwork_exact_iff (media_title : String)
    (folders : List (String × List String)) :
    (∃ s, select_artwork_match media_title folders = .exactMatch s) ↔
      ∃ p ∈ folders, media_title ∈ p.2 := by
  constructor
  · rintro ⟨s, hs⟩
    by_contra hno
    push_neg at hno
    have h := scanFolders_of_not_mem media_title hno 0 none []
    rw [select_artwork_match_of_save_none h.1] at hs
    by_cases hth : similarity_threshold ≤ (scanFolders media_title folders 0 none []).1
    · rw [if_pos hth] at hs; cases hs
    · rw [if_neg hth] at hs; cases hs
  · rintro ⟨p, hp, ht⟩
    have h := scanFolders_save_isSome media_title ⟨p, hp, ht⟩ 0 none []
    cases hv : (scanFolders media_title folders 0 none []).2.2.1 with
    | none => rw [hv] at h; simp at h
    | some s => exact ⟨s, select_artwork_match_of_save_some hv⟩

theorem select_artwork_exact_iff_witness :
    ∃ s, select_artwork_match "Breaking Bad (2008)" [("/tv", ["Breaking Bad (2008)"])] =
      .exactMatch s :=
  (select_artwork_exact_iff "Breaking Bad (2008)" [("/tv", ["Breaking Bad (2008)"])]).mpr
    ⟨("/tv", ["Breaking Bad (2008)"]), by decide, by decide⟩

end Backgroundarr
